import Mathlib

/-!
# Verification of the SurrealDB access-grant lifecycle engine

Shallow embedding of `crates/core/src/expr/statements/access.rs`: the grant
data model (`AccessGrant`, `Subject`, `Grant` variants), bearer-key generation
and SHA-256 hashing, and the four lifecycle operations (Create, Show, Revoke,
Purge).  Pure data and arithmetic are translated directly; the transactional
key-value store is modelled as the list of grants stored under one access
method (the scan order of the store), with point get / insert-if-absent /
set / delete realised as list operations keyed by the grant id.  The clock
(`Datetime::default()`) is passed in explicitly as an integer Unix timestamp,
and the random source of `random_string` is passed in as the list of drawn
pool indices, following the source's own design notes on explicit time and
randomness capabilities.
-/

set_option maxRecDepth 100000

namespace SurrealAccess

/-! ## SHA-256 (the `sha2::Sha256` digest used by `GrantBearer::hashed`)

The `sha2` crate is an external dependency of the repository; the algorithm
is the standard FIPS 180-4 SHA-256, implemented here over `Nat` words reduced
modulo `2 ^ 32`, taking the UTF-8 bytes of the input string and producing the
lowercase-hex encoding that `format!` with the `x` specifier emits. -/

/-- Truncate a natural number to a 32-bit word. -/
def w32 (n : Nat) : Nat := n % 2 ^ 32

/-- Right-rotation of a 32-bit word by `n` bits. -/
def rotr32 (n x : Nat) : Nat := w32 ((x >>> n) ||| (x <<< (32 - n)))

/-- SHA-256 message-schedule function, lowercase sigma 0. -/
def ssig0 (x : Nat) : Nat := (rotr32 7 x) ^^^ (rotr32 18 x) ^^^ (x >>> 3)

/-- SHA-256 message-schedule function, lowercase sigma 1. -/
def ssig1 (x : Nat) : Nat := (rotr32 17 x) ^^^ (rotr32 19 x) ^^^ (x >>> 10)

/-- SHA-256 compression function, uppercase sigma 0. -/
def bsig0 (x : Nat) : Nat := (rotr32 2 x) ^^^ (rotr32 13 x) ^^^ (rotr32 22 x)

/-- SHA-256 compression function, uppercase sigma 1. -/
def bsig1 (x : Nat) : Nat := (rotr32 6 x) ^^^ (rotr32 11 x) ^^^ (rotr32 25 x)

/-- SHA-256 choice function. -/
def shaCh (e f g : Nat) : Nat := (e &&& f) ^^^ ((e ^^^ 0xffffffff) &&& g)

/-- SHA-256 majority function. -/
def shaMaj (a b c : Nat) : Nat := (a &&& b) ^^^ (a &&& c) ^^^ (b &&& c)

/-- The 64 SHA-256 round constants (FIPS 180-4: the first 32 bits of the
fractional parts of the cube roots of the first 64 primes), written in
decimal. -/
def shaK : List Nat :=
  [1116352408, 1899447441, 3049323471, 3921009573, 961987163,
   1508970993, 2453635748, 2870763221, 3624381080, 310598401,
   607225278, 1426881987, 1925078388, 2162078206, 2614888103,
   3248222580, 3835390401, 4022224774, 264347078, 604807628,
   770255983, 1249150122, 1555081692, 1996064986, 2554220882,
   2821834349, 2952996808, 3210313671, 3336571891, 3584528711,
   113926993, 338241895, 666307205, 773529912, 1294757372,
   1396182291, 1695183700, 1986661051, 2177026350, 2456956037,
   2730485921, 2820302411, 3259730800, 3345764771, 3516065817,
   3600352804, 4094571909, 275423344, 430227734, 506948616,
   659060556, 883997877, 958139571, 1322822218, 1537002063,
   1747873779, 1955562222, 2024104815, 2227730452, 2361852424,
   2428436474, 2756734187, 3204031479, 3329325298]

/-- The SHA-256 initial hash state (FIPS 180-4: the first 32 bits of the
fractional parts of the square roots of the first 8 primes), written in
decimal. -/
def shaH0 : List Nat :=
  [1779033703, 3144134277, 1013904242, 2773480762,
   1359893119, 2600822924, 528734635, 1541459225]

/-- UTF-8 encoding of one character as a list of byte values. -/
def utf8Bytes (c : Char) : List Nat :=
  let n := c.toNat
  if n < 0x80 then [n]
  else if n < 0x800 then
    [0xc0 ||| (n >>> 6), 0x80 ||| (n &&& 0x3f)]
  else if n < 0x10000 then
    [0xe0 ||| (n >>> 12), 0x80 ||| ((n >>> 6) &&& 0x3f), 0x80 ||| (n &&& 0x3f)]
  else
    [0xf0 ||| (n >>> 18), 0x80 ||| ((n >>> 12) &&& 0x3f),
     0x80 ||| ((n >>> 6) &&& 0x3f), 0x80 ||| (n &&& 0x3f)]

/-- The UTF-8 bytes of a string, as `sha2`'s `update` consumes them. -/
def strBytes (s : String) : List Nat :=
  s.data.flatMap utf8Bytes

/-- Big-endian 64-bit encoding of the message bit length. -/
def be64 (n : Nat) : List Nat :=
  [(n >>> 56) % 256, (n >>> 48) % 256, (n >>> 40) % 256, (n >>> 32) % 256,
   (n >>> 24) % 256, (n >>> 16) % 256, (n >>> 8) % 256, n % 256]

/-- SHA-256 padding: a 0x80 byte, zeros to 56 mod 64, then the bit length. -/
def shaPad (msg : List Nat) : List Nat :=
  msg ++ [0x80] ++ List.replicate ((119 - msg.length % 64) % 64) 0
      ++ be64 (8 * msg.length)

/-- Group a byte list into big-endian 32-bit words. -/
def toWords : List Nat → List Nat
  | b0 :: b1 :: b2 :: b3 :: rest =>
      (((b0 * 256 + b1) * 256 + b2) * 256 + b3) :: toWords rest
  | _ => []

/-- One step of the SHA-256 message-schedule extension: appends the next word
computed from the words 2, 7, 15 and 16 positions back. -/
def extendStep (w : List Nat) : List Nat :=
  let n := w.length
  w ++ [w32 (ssig1 (w.getD (n - 2) 0) + w.getD (n - 7) 0
        + ssig0 (w.getD (n - 15) 0) + w.getD (n - 16) 0)]

/-- One SHA-256 round on the working variables `(a, b, c, d, e, f, g, h)`. -/
def shaRound (w : List Nat) (s : Nat × Nat × Nat × Nat × Nat × Nat × Nat × Nat)
    (t : Nat) : Nat × Nat × Nat × Nat × Nat × Nat × Nat × Nat :=
  match s with
  | (a, b, c, d, e, f, g, h) =>
    let t1 := w32 (h + bsig1 e + shaCh e f g + shaK.getD t 0 + w.getD t 0)
    let t2 := w32 (bsig0 a + shaMaj a b c)
    (w32 (t1 + t2), a, b, c, w32 (d + t1), e, f, g)

/-- The SHA-256 compression function: 64 rounds over one 64-word schedule,
added back into the incoming hash state. -/
def compress (hs : List Nat) (w : List Nat) : List Nat :=
  match (List.range 64).foldl (shaRound w)
      (hs.getD 0 0, hs.getD 1 0, hs.getD 2 0, hs.getD 3 0,
       hs.getD 4 0, hs.getD 5 0, hs.getD 6 0, hs.getD 7 0) with
  | (a, b, c, d, e, f, g, h) =>
    [w32 (hs.getD 0 0 + a), w32 (hs.getD 1 0 + b), w32 (hs.getD 2 0 + c),
     w32 (hs.getD 3 0 + d), w32 (hs.getD 4 0 + e), w32 (hs.getD 5 0 + f),
     w32 (hs.getD 6 0 + g), w32 (hs.getD 7 0 + h)]

/-- The eight 32-bit words of the SHA-256 digest of a byte list. -/
def sha256words (msg : List Nat) : List Nat :=
  let padded := shaPad msg
  (List.range (padded.length / 64)).foldl
    (fun st i => compress st (extendStep^[48] (toWords ((padded.drop (64 * i)).take 64))))
    shaH0

/-- The four big-endian bytes of a 32-bit word. -/
def wordBytes (x : Nat) : List Nat :=
  [(x >>> 24) % 256, (x >>> 16) % 256, (x >>> 8) % 256, x % 256]

/-- The sixteen lowercase hexadecimal digits. -/
def hexDigits : List Char := "0123456789abcdef".data

/-- A byte as two lowercase hex characters. -/
def byteToHex (b : Nat) : List Char :=
  [hexDigits.getD (b / 16 % 16) '0', hexDigits.getD (b % 16) '0']

/-- The SHA-256 digest of a string, encoded as lowercase hexadecimal — the
value of `format!` applied with the lowercase-hex specifier to
`Sha256::digest` of the string's UTF-8 bytes. -/
def sha256hex (s : String) : String :=
  String.mk (((sha256words (strBytes s)).flatMap wordBytes).flatMap byteToHex)

/-! ## The grant entity model

`Ident`, `Strand` and `Thing` are thin wrappers in `crates/core/src/expr`;
they are represented by the raw strings they carry.  `Datetime` wraps a
`chrono` UTC datetime whose ordering is chronological and whose
`timestamp()` is the (signed 64-bit) Unix second count; it is represented by
that integer second count.  `Duration` wraps `std::time::Duration`; the code
only consumes `secs()` (a `u64`) and datetime addition, so it is represented
by its whole-second count.  `Datetime::default()` is the current time and is
passed explicitly as `now`. -/

/-- Modelled from the spec: the tenancy level (`Base`): one of root,
namespace, or database. -/
inductive Base
  | Root
  | Ns
  | Db
deriving DecidableEq, Repr

/-- The subject of a grant: a record reference or a user name
(`Subject` in `access.rs`). -/
inductive Subject
  | Record (rid : String)
  | User (name : String)
deriving DecidableEq, Repr

/-- A JWT grant payload (`GrantJwt`). -/
structure GrantJwt where
  jti : String
  /-- JWT. Will not be stored after being returned. -/
  token : Option String
deriving DecidableEq, Repr

/-- A record grant payload (`GrantRecord`). -/
structure GrantRecord where
  rid : String
  jti : String
  /-- JWT. Will not be stored after being returned. -/
  token : Option String
deriving DecidableEq, Repr

/-- A bearer grant payload (`GrantBearer`): the key id and the key field,
which holds the plaintext key immediately after generation and the hash of
the key once persisted. -/
structure GrantBearer where
  id : String
  key : String
deriving DecidableEq, Repr

/-- The grant payload variants (`Grant`). -/
inductive Grant
  | Jwt (g : GrantJwt)
  | Record (g : GrantRecord)
  | Bearer (g : GrantBearer)
deriving DecidableEq, Repr

/-- The persisted/returned grant entity (`AccessGrant`).  Times are integer
Unix timestamps; `expiration` and `revocation` are optional. -/
structure AccessGrant where
  id : String
  ac : String
  creation : Int
  expiration : Option Int
  revocation : Option Int
  subject : Subject
  grant : Grant
deriving DecidableEq, Repr

/-- `AccessGrant::redacted`: returns a copy of the grant with potential
secrets removed — JWT and record grants drop the transient token, bearer
grants replace the key with the fixed redaction marker. -/
def AccessGrant.redacted (ags : AccessGrant) : AccessGrant :=
  { ags with
    grant :=
      match ags.grant with
      | Grant.Jwt gr => Grant.Jwt { gr with token := none }
      | Grant.Record gr => Grant.Record { gr with token := none }
      | Grant.Bearer gr => Grant.Bearer { gr with key := "[REDACTED]" } }

/-- `AccessGrant::is_expired`, with the evaluation time (the source's
`Datetime::default()`) passed explicitly. -/
def AccessGrant.is_expired (g : AccessGrant) (now : Int) : Bool :=
  match g.expiration with
  | some exp => exp < now
  | none => false

/-- `AccessGrant::is_revoked`. -/
def AccessGrant.is_revoked (g : AccessGrant) : Bool :=
  g.revocation.isSome

/-- `AccessGrant::is_active`, with the evaluation time passed explicitly. -/
def AccessGrant.is_active (g : AccessGrant) (now : Int) : Bool :=
  !(g.is_expired now || g.is_revoked)

/-- The bearer key field of a grant, when its payload is a bearer grant:
the observable secret material of a bearer `AccessGrant`. -/
def bearerKeyOf (g : AccessGrant) : Option String :=
  match g.grant with
  | Grant.Bearer b => some b.key
  | _ => none

/-- The transient token field of a grant, when its payload carries one. -/
def tokenOf (g : AccessGrant) : Option String :=
  match g.grant with
  | Grant.Jwt j => j.token
  | Grant.Record r => r.token
  | Grant.Bearer _ => none

/-! ## Bearer key generation and hashing -/

/-- The 62-symbol pool keys are generated from
(`GRANT_BEARER_CHARACTER_POOL`). -/
def GRANT_BEARER_CHARACTER_POOL : List Char :=
  "0123456789abcdefghijklmnopqrstuvwxyzABCDEFGHIJKLMNOPQRSTUVWXYZ".data

/-- `GRANT_BEARER_ID_LENGTH`: the key identifier is 12 symbols. -/
def GRANT_BEARER_ID_LENGTH : Nat := 12

/-- `GRANT_BEARER_KEY_LENGTH`: the secret is 24 symbols. -/
def GRANT_BEARER_KEY_LENGTH : Nat := 24

/-- `random_string`: one pool symbol per random draw.  The source draws each
index from `gen_range(0..pool.len())` with the thread random generator; the
draws are passed in explicitly, one per output symbol, reduced modulo the
pool size. -/
def random_string (pool : List Char) (draws : List Nat) : String :=
  String.mk (draws.map (fun i => pool.getD (i % pool.length) '0'))

/-- `GrantBearer::new`: a fresh bearer key for the given token head `pre`
(the access method's bearer kind determines it).  The key id is one symbol
from the non-digit tail of the pool followed by eleven symbols from the full
pool; the secret is twenty-four symbols from the full pool; the key is the
three-part string `pre`, id, secret joined by hyphens.  `d1`, `dId` and
`dKey` are the random draws of the three `random_string` calls. -/
def GrantBearer.new (pre : String) (d1 : Nat) (dId dKey : List Nat) : GrantBearer :=
  let id := random_string (GRANT_BEARER_CHARACTER_POOL.drop 10) [d1]
      ++ random_string GRANT_BEARER_CHARACTER_POOL dId
  let secret := random_string GRANT_BEARER_CHARACTER_POOL dKey
  { id := id
    key := pre ++ "-" ++ id ++ "-" ++ secret }

/-- `GrantBearer::hashed`: a copy of the bearer grant whose key field is the
SHA-256 digest, in lowercase hex, of the full key string (token head and key
identifier are kept as salt). -/
def GrantBearer.hashed (b : GrantBearer) : GrantBearer :=
  { b with key := sha256hex b.key }

/-! ## Access-method definitions

`AccessType` and the bearer sub-configuration live in
`crates/core/src/expr/access_type.rs`, which is outside the sources at hand;
their shapes below are modelled from the spec and from their use sites in
`access.rs`. -/

/-- Modelled from the spec: the subject kind a bearer access method is
configured for (`BearerAccessSubject`). -/
inductive BearerAccessSubject
  | Record
  | User
deriving DecidableEq, Repr

/-- Modelled from the spec: a bearer access configuration (`BearerAccess`);
`pre` stands for the token head string `kind.prefix()` determined by its
bearer kind, and `subject` is its configured subject kind. -/
structure BearerAccess where
  pre : String
  subject : BearerAccessSubject
deriving DecidableEq, Repr

/-- Modelled from the spec: the access-method type tag (`AccessType`) — a
token-based (JWT) method, a record method with an optional nested bearer
configuration, or a generic bearer method. -/
inductive AccessType
  | Jwt
  | Record (bearer : Option BearerAccess)
  | Bearer (ba : BearerAccess)
deriving DecidableEq, Repr

/-- Modelled from the spec: the duration configuration of an access method;
only the grant duration (in whole seconds) is consumed here. -/
structure AccessDuration where
  grant : Option Nat
deriving DecidableEq, Repr

/-- Modelled from the spec: the resolved access-method definition — its name,
type tag and configured durations (`DefineAccessStatement`). -/
structure DefineAccess where
  name : String
  kind : AccessType
  duration : AccessDuration
deriving DecidableEq, Repr

/-! ## Statements and errors -/

/-- `ACCESS ... GRANT` (`AccessStatementGrant`). -/
structure AccessStatementGrant where
  ac : String
  base : Option Base
  subject : Subject
deriving DecidableEq, Repr

/-- `ACCESS ... PURGE` (`AccessStatementPurge`).  `grace` is the grace
duration in whole seconds (`Duration::secs()` is a `u64`). -/
structure AccessStatementPurge where
  ac : String
  base : Option Base
  expired : Bool
  revoked : Bool
  grace : Nat
deriving DecidableEq, Repr

/-- The error kinds of `crate::err::Error` raised by the lifecycle engine. -/
inductive Error
  | Unimplemented
  | AccessGrantInvalidSubject
  | DbEmpty
  | AccessMethodMismatch
  | AccessLevelMismatch
  | TxKeyAlreadyExists
  | AccessGrantRevoked
  | UserNotFound
  | GrantNotFound
deriving DecidableEq, Repr

/-! ## The grant store and the Create operation

The transactional store is modelled as the list of grants persisted under
one tenancy level and access method, in scan order.  `txn.put` is
insert-if-absent on the grant-id key; `txn.set` overwrites at the key;
`txn.del` removes the key.  Authorization (`is_allowed`), the access-method
lookup (whose failure is a terminal not-found error) and the idempotent
namespace/database ensure calls are external collaborators that do not touch
the grant list; the operations below receive the already-resolved
access-method definition and act on the grant list directly. -/

/-- `txn.put`: insert the grant at its id key, failing with
`TxKeyAlreadyExists` when a grant with that id is already present. -/
def put (store : List AccessGrant) (gr : AccessGrant) :
    Except Error (List AccessGrant) :=
  if store.any (fun g => g.id = gr.id) then Except.error Error.TxKeyAlreadyExists
  else Except.ok (store ++ [gr])

/-- The explicit capabilities `create_grant` consumes: the current-selection
fallback for the statement's level, the clock, the per-level user-existence
lookup of `get_root_user` / `get_ns_user` / `get_db_user`, and the random
draws of the bearer-key generation. -/
structure CreateEnv where
  selected_base : Base
  now : Int
  userExists : Base → String → Bool
  d1 : Nat
  dId : List Nat
  dKey : List Nat

/-- The `AccessGrant` built by `create_grant` around a fresh bearer key:
id is the key id, creation is now, expiration is now plus the access
method's grant duration when configured, revocation starts empty, the
subject is the statement's, and the payload is the bearer grant. -/
def builtGrant (ac : DefineAccess) (subject : Subject) (env : CreateEnv)
    (grant : GrantBearer) : AccessGrant :=
  { id := grant.id
    ac := ac.name
    creation := env.now
    expiration := ac.duration.grant.map (fun d => (d : Int) + env.now)
    revocation := none
    subject := subject
    grant := Grant.Bearer grant }

/-- `create_grant`: issue a grant for the resolved access method `ac` against
the grant list `store`, returning the original (plaintext) grant together
with the updated store.  An error means the transaction fails and nothing is
written.  Follows `create_grant` in `access.rs` branch for branch; the
`Base::Db`-only persistence match of the record branch (whose other arm
raises `AccessLevelMismatch`) is kept even though the earlier `DbEmpty`
check already pins the level. -/
def create_grant (stmt : AccessStatementGrant) (ac : DefineAccess)
    (env : CreateEnv) (store : List AccessGrant) :
    Except Error (AccessGrant × List AccessGrant) :=
  let base := stmt.base.getD env.selected_base
  match ac.kind with
  | AccessType.Jwt =>
    -- Issuing grants for JWT access methods is unsupported.
    Except.error Error.Unimplemented
  | AccessType.Record ob =>
    match stmt.subject with
    | Subject.User _ => Except.error Error.AccessGrantInvalidSubject
    | Subject.Record _ =>
      -- If the grant is being created for a record, a database must be selected.
      if base = Base.Db then
        -- The record access type must allow issuing bearer grants.
        match ob with
        | none => Except.error Error.AccessMethodMismatch
        | some atb =>
          let grant := GrantBearer.new atb.pre env.d1 env.dId env.dKey
          let gr := builtGrant ac stmt.subject env grant
          -- Persist a hashed version of the grant; return the original.
          let grStore := { gr with grant := Grant.Bearer grant.hashed }
          match base with
          | Base.Db => (put store grStore).map (fun s => (gr, s))
          | _ => Except.error Error.AccessLevelMismatch
      else Except.error Error.DbEmpty
  | AccessType.Bearer atk =>
    let check : Except Error Unit :=
      match stmt.subject with
      | Subject.User user =>
        -- Grant subject must match access method subject.
        if atk.subject = BearerAccessSubject.User then
          -- If the grant is being created for a user, the user must exist.
          if env.userExists base user then Except.ok ()
          else Except.error Error.UserNotFound
        else Except.error Error.AccessGrantInvalidSubject
      | Subject.Record _ =>
        -- If the grant is being created for a record, a database must be selected.
        if base = Base.Db then
          -- Grant subject must match access method subject.
          if atk.subject = BearerAccessSubject.Record then Except.ok ()
          else Except.error Error.AccessGrantInvalidSubject
        else Except.error Error.DbEmpty
    check.bind (fun _ =>
      let grant := GrantBearer.new atk.pre env.d1 env.dId env.dKey
      let gr := builtGrant ac stmt.subject env grant
      -- Persist a hashed version of the grant; return the original.
      let grStore := { gr with grant := Grant.Bearer grant.hashed }
      (put store grStore).map (fun s => (gr, s)))

/-! ## Show

The filter predicate (`Cond`) is an expression evaluated by the external
predicate evaluator against the grant as a structured document; it is
modelled as the boolean function of the document grant it produces. -/

/-- `ACCESS ... SHOW` (`AccessStatementShow`), with the condition as the
predicate-evaluator function. -/
structure AccessStatementShow where
  ac : String
  base : Option Base
  gr : Option String
  cond : Option (AccessGrant → Bool)

/-- The bulk scan loop of `compute_show`: each scanned grant is redacted
before the condition is evaluated, skipped when the condition is not truthy
on that redacted form, and appended to the result in redacted form. -/
def showLoop (cond : Option (AccessGrant → Bool)) :
    List AccessGrant → List AccessGrant
  | [] => []
  | gr :: rest =>
    match cond with
    | some c =>
      if c gr.redacted then gr.redacted :: showLoop cond rest
      else showLoop cond rest
    | none => gr.redacted :: showLoop cond rest

/-- `compute_show`: with a grant id, fetch that grant (a missing id is a
terminal not-found error) and return its redacted form; otherwise scan all
grants, filtering by the condition evaluated on the redacted forms. -/
def compute_show (stmt : AccessStatementShow) (store : List AccessGrant) :
    Except Error (List AccessGrant) :=
  match stmt.gr with
  | some grId =>
    match store.find? (fun g => g.id = grId) with
    | none => Except.error Error.GrantNotFound
    | some grant => Except.ok [grant.redacted]
  | none => Except.ok (showLoop stmt.cond store)

/-! ## Revoke -/

/-- `ACCESS ... REVOKE` (`AccessStatementRevoke`), with the condition as the
predicate-evaluator function. -/
structure AccessStatementRevoke where
  ac : String
  base : Option Base
  gr : Option String
  cond : Option (AccessGrant → Bool)

/-- The bulk scan loop of `revoke_grant`: already-revoked grants are silently
skipped; the condition, when given, is evaluated on the redacted form and
non-matching grants are skipped; each remaining grant has its revocation
time set to now, is written back, and its redacted form is appended to the
result.  Returns the updated grant list and the result collection. -/
def revokeLoop (cond : Option (AccessGrant → Bool)) (now : Int) :
    List AccessGrant → List AccessGrant × List AccessGrant
  | [] => ([], [])
  | gr :: rest =>
    -- If the grant is already revoked, it cannot be revoked again.
    if gr.revocation.isSome then
      let (s, r) := revokeLoop cond now rest
      (gr :: s, r)
    else
      let keep :=
        match cond with
        | some c => c gr.redacted
        | none => true
      if keep then
        let gr2 := { gr with revocation := some now }
        let (s, r) := revokeLoop cond now rest
        (gr2 :: s, gr2.redacted :: r)
      else
        let (s, r) := revokeLoop cond now rest
        (gr :: s, r)

/-- The condition a grant must pass in the bulk revoke loop: not yet
revoked, and the condition (when given) truthy on its redacted form. -/
def revokePick (cond : Option (AccessGrant → Bool)) (gr : AccessGrant) :
    Bool :=
  if gr.revocation.isSome then false
  else
    match cond with
    | some c => c gr.redacted
    | none => true

/-- `revoke_grant`: with a grant id, fetch that grant, fail with
`AccessGrantRevoked` when it already has a revocation time (writing nothing
back), else set its revocation time to now, write it back and return its
redacted form; without an id, run the bulk loop.  Returns the updated grant
list and the redacted revoked grants. -/
def revoke_grant (stmt : AccessStatementRevoke) (now : Int)
    (store : List AccessGrant) :
    Except Error (List AccessGrant × List AccessGrant) :=
  match stmt.gr with
  | some grId =>
    match store.find? (fun g => g.id = grId) with
    | none => Except.error Error.GrantNotFound
    | some gr0 =>
      if gr0.revocation.isSome then Except.error Error.AccessGrantRevoked
      else
        let revoke := { gr0 with revocation := some now }
        Except.ok
          (store.map (fun g => if g.id = grId then revoke else g),
           [revoke.redacted])
  | none => Except.ok (revokeLoop stmt.cond now store)

/-! ## Purge -/

/-- `i64::saturating_sub`: exact integer subtraction clamped to the signed
64-bit range. -/
def satSubI64 (a b : Int) : Int :=
  max (min (a - b) (2 ^ 63 - 1)) (-(2 ^ 63))

/-- The `as u64` cast of a signed 64-bit value: reinterpretation of the
two's-complement bits, i.e. reduction modulo `2 ^ 64`. -/
def i64AsU64 (a : Int) : Nat :=
  (a % 2 ^ 64).toNat

/-- The elapsed-seconds computation of `compute_purge`:
`now.timestamp().saturating_sub(t.timestamp()) as u64`. -/
def purge_elapsed (now t : Int) : Nat :=
  i64AsU64 (satSubI64 now t)

/-- The per-grant eligibility test of `compute_purge`: the expired flag with
an expiration time that is not in the future and whose elapsed seconds
strictly exceed the grace, or the same for the revoked flag and the
revocation time. -/
def purgeCond (stmt : AccessStatementPurge) (now : Int) (gr : AccessGrant) :
    Bool :=
  let purgeExpired := stmt.expired &&
    (gr.expiration.elim false (fun exp =>
      -- Prevent saturating when not expired yet.
      now ≥ exp && purge_elapsed now exp > stmt.grace))
  let purgeRevoked := stmt.revoked &&
    (gr.revocation.elim false (fun rev =>
      -- Prevent saturating when not revoked yet.
      now ≥ rev && purge_elapsed now rev > stmt.grace))
  purgeExpired || purgeRevoked

/-- `compute_purge`: scan all grants; delete each eligible grant from the
store and append its redacted form to the result; leave the rest untouched.
Returns the remaining grant list and the redacted purged grants, both in
scan order. -/
def compute_purge (stmt : AccessStatementPurge) (now : Int) :
    List AccessGrant → List AccessGrant × List AccessGrant
  | [] => ([], [])
  | gr :: rest =>
    let (keep, purged) := compute_purge stmt now rest
    if purgeCond stmt now gr then (keep, gr.redacted :: purged)
    else (gr :: keep, purged)

/-! ## Concrete fixtures used to instantiate the theorems -/

/-- A concrete purge statement: purge expired grants with a 60-second
grace. -/
def purgeStmtW : AccessStatementPurge :=
  { ac := "api", base := none, expired := true, revoked := false, grace := 60 }

/-- A concrete grant that expired at time 1000 and was never revoked. -/
def grantW : AccessGrant :=
  { id := "a1", ac := "api", creation := 0, expiration := some 1000,
    revocation := none, subject := Subject.User "alice",
    grant := Grant.Jwt { jti := "j1", token := none } }

/-- A concrete grant revoked at time 500. -/
def grantRevokedW : AccessGrant :=
  { id := "b2", ac := "api", creation := 0, expiration := none,
    revocation := some 500, subject := Subject.User "bob",
    grant := Grant.Bearer { id := "b2", key := "hashhex" } }

/-- A concrete grant statement for a record subject. -/
def grantStmtW : AccessStatementGrant :=
  { ac := "api", base := some Base.Db, subject := Subject.Record "user:one" }

/-- A concrete record-bearer access method. -/
def acRecordW : DefineAccess :=
  { name := "api",
    kind := AccessType.Record
      (some { pre := "surreal-bearer", subject := BearerAccessSubject.Record }),
    duration := { grant := some 600 } }

/-- A concrete record-bearer access method without the nested bearer
configuration. -/
def acRecordNoBearerW : DefineAccess :=
  { name := "api", kind := AccessType.Record none,
    duration := { grant := some 600 } }

/-- A concrete creation environment: database level, time 1000, every user
exists, and all random draws zero. -/
def envW : CreateEnv :=
  { selected_base := Base.Db, now := 1000, userExists := fun _ _ => true,
    d1 := 0, dId := List.replicate 11 0, dKey := List.replicate 24 0 }

/-! ## General lemmas about the embedding -/

/-- Redaction does not change the grant id. -/
theorem redacted_id (g : AccessGrant) : g.redacted.id = g.id := rfl

/-- Redaction does not change the revocation time. -/
theorem redacted_revocation (g : AccessGrant) :
    g.redacted.revocation = g.revocation := rfl

/-- The kept part of a purge is the store filtered by non-eligibility. -/
theorem compute_purge_fst (stmt : AccessStatementPurge) (now : Int)
    (store : List AccessGrant) :
    (compute_purge stmt now store).1 =
      store.filter (fun g => !purgeCond stmt now g) := by
  induction store with
  | nil => rfl
  | cons gr rest ih =>
    by_cases h : purgeCond stmt now gr = true <;>
      simp [compute_purge, List.filter_cons, h, ih]

/-- The result of a purge is the redaction of the eligible grants, in scan
order. -/
theorem compute_purge_snd (stmt : AccessStatementPurge) (now : Int)
    (store : List AccessGrant) :
    (compute_purge stmt now store).2 =
      (store.filter (purgeCond stmt now)).map AccessGrant.redacted := by
  induction store with
  | nil => rfl
  | cons gr rest ih =>
    by_cases h : purgeCond stmt now gr = true <;>
      simp [compute_purge, List.filter_cons, h, ih]

/-! ## C8 — expiry/revocation/activity predicates -/

/-- C8: at every evaluation time, `is_expired` holds exactly when the
expiration time is present and strictly in the past, `is_revoked` exactly
when the revocation time is present, and `is_active` is the negation of
their disjunction. -/
theorem grant_predicates (g : AccessGrant) (now : Int) :
    (g.is_expired now = true ↔ ∃ exp, g.expiration = some exp ∧ exp < now) ∧
    (g.is_revoked = true ↔ ∃ rev, g.revocation = some rev) ∧
    (g.is_active now = !(g.is_expired now || g.is_revoked)) := by
  refine ⟨?_, ?_, rfl⟩
  · cases h : g.expiration <;> simp [AccessGrant.is_expired, h]
  · cases h : g.revocation <;> simp [AccessGrant.is_revoked, h]

/-! ## C9 — redaction idempotence -/

/-- C9: redacting an already redacted grant changes nothing, for every
payload variant. -/
theorem redacted_idempotent (g : AccessGrant) :
    g.redacted.redacted = g.redacted := by
  cases h : g.grant <;> simp [AccessGrant.redacted, h]

/-! ## C10 — purge with both flags unset is a no-op -/

/-- C10: a purge whose expired and revoked flags are both false deletes
nothing, leaves every grant unchanged, and returns the empty collection. -/
theorem purge_no_flags_noop (acName : String) (b : Option Base) (grace : Nat)
    (now : Int) (store : List AccessGrant) :
    compute_purge
        { ac := acName, base := b, expired := false, revoked := false,
          grace := grace } now store = (store, []) := by
  induction store with
  | nil => rfl
  | cons gr rest ih => simp [compute_purge, purgeCond, ih]

/-! ## Purge arithmetic -/

/-- Under the `now >= t` guard and for timestamps in the range `chrono`
datetimes can produce (far inside the signed 64-bit range), the elapsed
computation is the exact difference in seconds. -/
theorem purge_elapsed_exact (now t : Int) (hn : now.natAbs ≤ 2 ^ 61)
    (ht : t.natAbs ≤ 2 ^ 61) (h : t ≤ now) :
    purge_elapsed now t = (now - t).toNat := by
  have e63 : (2 : Int) ^ 63 = 9223372036854775808 := by norm_num
  have e64 : (2 : Int) ^ 64 = 18446744073709551616 := by norm_num
  have e61n : (2 : Nat) ^ 61 = 2305843009213693952 := by norm_num
  rw [e61n] at hn ht
  unfold purge_elapsed i64AsU64 satSubI64
  rw [e63, e64]
  have h1 : min (now - t) (9223372036854775808 - 1) = now - t := by
    rw [min_eq_left]; omega
  rw [h1]
  have h2 : max (now - t) (-9223372036854775808) = now - t := by
    rw [max_eq_left]; omega
  rw [h2]
  rw [Int.emod_eq_of_lt (by omega) (by omega)]

/-- The eligibility boolean agrees with the spec's eligibility condition,
read with exact integer arithmetic, for timestamps in the producible
range. -/
theorem purgeCond_iff (stmt : AccessStatementPurge) (now : Int)
    (g : AccessGrant) (hn : now.natAbs ≤ 2 ^ 61)
    (he : ∀ e ∈ g.expiration, e.natAbs ≤ 2 ^ 61)
    (hr : ∀ r ∈ g.revocation, r.natAbs ≤ 2 ^ 61) :
    purgeCond stmt now g = true ↔
      (stmt.expired = true ∧ ∃ exp, g.expiration = some exp ∧
        now ≥ exp ∧ now - exp > (stmt.grace : Int)) ∨
      (stmt.revoked = true ∧ ∃ rev, g.revocation = some rev ∧
        now ≥ rev ∧ now - rev > (stmt.grace : Int)) := by
  have key : ∀ t : Int, t.natAbs ≤ 2 ^ 61 →
      ((now ≥ t ∧ purge_elapsed now t > stmt.grace) ↔
        (now ≥ t ∧ now - t > (stmt.grace : Int))) := by
    intro t hbt
    constructor
    · rintro ⟨hge, hgt⟩
      rw [purge_elapsed_exact now t hn hbt hge] at hgt
      exact ⟨hge, by omega⟩
    · rintro ⟨hge, hgt⟩
      refine ⟨hge, ?_⟩
      rw [purge_elapsed_exact now t hn hbt hge]
      omega
  unfold purgeCond
  cases hexp : g.expiration with
  | none =>
    cases hrev : g.revocation with
    | none => simp [hexp, hrev]
    | some rev =>
      rw [hrev] at hr
      simp only [hexp, hrev, Option.elim_none, Option.elim_some,
        Bool.and_false, Bool.false_or, Bool.and_eq_true, Bool.or_eq_true,
        decide_eq_true_eq]
      rw [key rev (hr rev rfl)]
      simp
  | some exp =>
    rw [hexp] at he
    cases hrev : g.revocation with
    | none =>
      simp only [hexp, hrev, Option.elim_none, Option.elim_some,
        Bool.and_false, Bool.or_false, Bool.and_eq_true, Bool.or_eq_true,
        decide_eq_true_eq]
      rw [key exp (he exp rfl)]
      simp
    | some rev =>
      rw [hrev] at hr
      simp only [hexp, hrev, Option.elim_some, Bool.and_eq_true,
        Bool.or_eq_true, decide_eq_true_eq]
      rw [key exp (he exp rfl), key rev (hr rev rfl)]
      simp

/-! ## C2 — purge eligibility -/

/-- C2: a scanned grant is deleted by purge (equivalently, its redacted form
appears in the purge result) exactly when the expired flag is set and its
expiration time `exp` satisfies `now ≥ exp` and `now − exp > grace`
(strictly), or the revoked flag is set with the same condition on its
revocation time; in particular exactly-at-grace and future times are never
purged.  Timestamps are assumed inside the range `chrono` datetimes
produce. -/
theorem purge_deletes_iff_eligible (stmt : AccessStatementPurge) (now : Int)
    (store : List AccessGrant) (g : AccessGrant)
    (hmem : g ∈ store) (hnd : (store.map AccessGrant.id).Nodup)
    (hn : now.natAbs ≤ 2 ^ 61)
    (he : ∀ e ∈ g.expiration, e.natAbs ≤ 2 ^ 61)
    (hr : ∀ r ∈ g.revocation, r.natAbs ≤ 2 ^ 61) :
    (g.redacted ∈ (compute_purge stmt now store).2 ↔
      ((stmt.expired = true ∧ ∃ exp, g.expiration = some exp ∧
          now ≥ exp ∧ now - exp > (stmt.grace : Int)) ∨
       (stmt.revoked = true ∧ ∃ rev, g.revocation = some rev ∧
          now ≥ rev ∧ now - rev > (stmt.grace : Int)))) ∧
    (g ∈ (compute_purge stmt now store).1 ↔
      ¬ ((stmt.expired = true ∧ ∃ exp, g.expiration = some exp ∧
            now ≥ exp ∧ now - exp > (stmt.grace : Int)) ∨
         (stmt.revoked = true ∧ ∃ rev, g.revocation = some rev ∧
            now ≥ rev ∧ now - rev > (stmt.grace : Int)))) := by
  have hiff := purgeCond_iff stmt now g hn he hr
  rw [compute_purge_snd, compute_purge_fst]
  constructor
  · constructor
    · intro hin
      rw [List.mem_map] at hin
      obtain ⟨g2, hg2, heq⟩ := hin
      rw [List.mem_filter] at hg2
      obtain ⟨hg2mem, hg2cond⟩ := hg2
      have hid : g2.id = g.id := by
        rw [← redacted_id g2, heq, redacted_id]
      have hgg : g2 = g := List.inj_on_of_nodup_map hnd hg2mem hmem hid
      rw [hgg] at hg2cond
      exact hiff.mp hg2cond
    · intro hspec
      rw [List.mem_map]
      exact ⟨g, List.mem_filter.mpr ⟨hmem, hiff.mpr hspec⟩, rfl⟩
  · rw [List.mem_filter]
    constructor
    · rintro ⟨_, hcond⟩ hspec
      rw [hiff.mpr hspec] at hcond
      exact absurd hcond (by simp)
    · intro hns
      refine ⟨hmem, ?_⟩
      cases hc : purgeCond stmt now g with
      | false => simp
      | true => exact absurd (hiff.mp hc) hns

/-- Witness for C2 at a concrete input: at time 1061 with grace 60, the
grant that expired at time 1000 (61 seconds ago) is purged. -/
theorem purge_deletes_iff_eligible_witness :
    (grantW ∈ [grantW] ∧ ([grantW].map AccessGrant.id).Nodup ∧
      (1061 : Int).natAbs ≤ 2 ^ 61 ∧
      (∀ e ∈ grantW.expiration, e.natAbs ≤ 2 ^ 61) ∧
      (∀ r ∈ grantW.revocation, r.natAbs ≤ 2 ^ 61)) ∧
    ((grantW.redacted ∈ (compute_purge purgeStmtW 1061 [grantW]).2 ↔
      ((purgeStmtW.expired = true ∧ ∃ exp, grantW.expiration = some exp ∧
          (1061 : Int) ≥ exp ∧ 1061 - exp > (purgeStmtW.grace : Int)) ∨
       (purgeStmtW.revoked = true ∧ ∃ rev, grantW.revocation = some rev ∧
          (1061 : Int) ≥ rev ∧ 1061 - rev > (purgeStmtW.grace : Int)))) ∧
     (grantW ∈ (compute_purge purgeStmtW 1061 [grantW]).1 ↔
      ¬ ((purgeStmtW.expired = true ∧ ∃ exp, grantW.expiration = some exp ∧
            (1061 : Int) ≥ exp ∧ 1061 - exp > (purgeStmtW.grace : Int)) ∨
         (purgeStmtW.revoked = true ∧ ∃ rev, grantW.revocation = some rev ∧
            (1061 : Int) ≥ rev ∧ 1061 - rev > (purgeStmtW.grace : Int))))) :=
  ⟨⟨by decide, by decide, by decide,
    by intro e he2; simp [grantW] at he2; subst he2; decide,
    by intro r hr2; simp [grantW] at hr2⟩,
   purge_deletes_iff_eligible purgeStmtW 1061 [grantW] grantW
     (by decide) (by decide) (by decide)
     (by intro e he2; simp [grantW] at he2; subst he2; decide)
     (by intro r hr2; simp [grantW] at hr2)⟩

/-! ## C3 — the elapsed-time arithmetic does not saturate at zero -/

/-- C3 counterexample: with `now = 0` and an expiration or revocation time
10 seconds in the future (the `now >= time` guard bypassed), the elapsed
computation `now.timestamp().saturating_sub(t.timestamp()) as u64` wraps to
`2 ^ 64 − 10` — a large unsigned value far above a grace bound of a million
— rather than saturating at zero. -/
theorem purge_elapsed_wraps_cex :
    purge_elapsed 0 10 = 18446744073709551606 ∧
    purge_elapsed 0 10 ≠ 0 ∧
    purge_elapsed 0 10 > 1000000 := by decide

/-- C3 amended: the subtraction is `i64::saturating_sub` (clamping at the
signed 64-bit bounds, hence never panicking) followed by a wrapping `u64`
cast.  Under the `now >= time` guard it computes the exact elapsed seconds
for all producible timestamps; when the time lies in the future the guard
itself short-circuits the eligibility conjunction, so the wrapped value is
never compared against the grace bound. -/
theorem purge_elapsed_guarded (now t : Int) (grace : Nat)
    (hn : now.natAbs ≤ 2 ^ 61) (ht : t.natAbs ≤ 2 ^ 61) :
    (t ≤ now → purge_elapsed now t = (now - t).toNat) ∧
    (now < t → ((now ≥ t && purge_elapsed now t > grace) = false)) := by
  constructor
  · intro h
    exact purge_elapsed_exact now t hn ht h
  · intro h
    have hng : ¬ (now ≥ t) := by omega
    simp [hng]

/-- Witness for C3 amended at a concrete input: with `now = 5`, for the past
time 3 the elapsed value is exactly 2, and for any future time the guard
conjunction is false. -/
theorem purge_elapsed_guarded_witness :
    ((5 : Int).natAbs ≤ 2 ^ 61 ∧ (3 : Int).natAbs ≤ 2 ^ 61) ∧
    (((3 : Int) ≤ 5 → purge_elapsed 5 3 = ((5 : Int) - 3).toNat) ∧
     ((5 : Int) < 3 → (((5 : Int) ≥ 3 && purge_elapsed 5 3 > 0) = false))) :=
  ⟨⟨by decide, by decide⟩, purge_elapsed_guarded 5 3 0 (by decide) (by decide)⟩

/-! ## Shape of the bulk Show and Revoke loops -/

/-- The bulk show loop with a condition keeps exactly the grants whose
redacted form satisfies the condition, returning their redacted forms in
scan order. -/
theorem showLoop_eq (c : AccessGrant → Bool) (store : List AccessGrant) :
    showLoop (some c) store =
      (store.filter (fun g => c g.redacted)).map AccessGrant.redacted := by
  induction store with
  | nil => rfl
  | cons gr rest ih =>
    by_cases hc : c gr.redacted <;> simp [showLoop, List.filter_cons, hc, ih]

/-- The pick condition of the bulk revoke loop, as a boolean conjunction. -/
theorem revokePick_eq (cond : Option (AccessGrant → Bool)) (gr : AccessGrant) :
    revokePick cond gr =
      (!gr.revocation.isSome && cond.elim true (fun c => c gr.redacted)) := by
  cases hv : gr.revocation with
  | some v => simp [revokePick, hv]
  | none => cases cond <;> simp [revokePick, hv]

/-- The updated grant list of the bulk revoke loop: picked grants get their
revocation time set to now, all others are unchanged. -/
theorem revokeLoop_fst (cond : Option (AccessGrant → Bool)) (now : Int)
    (store : List AccessGrant) :
    (revokeLoop cond now store).1 =
      store.map (fun gr =>
        if revokePick cond gr then { gr with revocation := some now }
        else gr) := by
  induction store with
  | nil => rfl
  | cons gr rest ih =>
    cases hv : gr.revocation with
    | some v => simp [revokeLoop, revokePick, hv, ih]
    | none =>
      cases cond with
      | none => simp [revokeLoop, revokePick, hv, ih]
      | some c =>
        by_cases hc : c gr.redacted <;>
          simp [revokeLoop, revokePick, hv, hc, ih]

/-- The result collection of the bulk revoke loop: the redacted forms of the
picked grants with their revocation time set, in scan order. -/
theorem revokeLoop_snd (cond : Option (AccessGrant → Bool)) (now : Int)
    (store : List AccessGrant) :
    (revokeLoop cond now store).2 =
      (store.filter (revokePick cond)).map
        (fun gr => ({ gr with revocation := some now } : AccessGrant).redacted) := by
  induction store with
  | nil => rfl
  | cons gr rest ih =>
    cases hv : gr.revocation with
    | some v => simp [revokeLoop, revokePick, List.filter_cons, hv, ih]
    | none =>
      cases cond with
      | none => simp [revokeLoop, revokePick, List.filter_cons, hv, ih]
      | some c =>
        by_cases hc : c gr.redacted <;>
          simp [revokeLoop, revokePick, List.filter_cons, hv, hc, ih]

/-- Setting the revocation time or leaving a grant alone does not change its
id. -/
theorem revokeUpdate_id (cond : Option (AccessGrant → Bool)) (now : Int)
    (gr : AccessGrant) :
    (if revokePick cond gr then { gr with revocation := some now }
     else gr).id = gr.id := by
  by_cases h : revokePick cond gr <;> simp [h]

/-! ## C4 — revocation is not idempotent -/

/-- C4: revoking by id a grant that already carries a revocation time fails
with `AccessGrantRevoked` and writes nothing back; the bulk revoke silently
skips such a grant — it stays in the store unchanged and nothing with its id
is in the returned collection. -/
theorem revoke_already_revoked (acName : String) (b : Option Base)
    (cond : Option (AccessGrant → Bool)) (now : Int)
    (store : List AccessGrant) (grId : String) (g0 g : AccessGrant)
    (r r2 : Int) (s2 rev2 : List AccessGrant)
    (hfind : store.find? (fun x => x.id = grId) = some g0)
    (h0 : g0.revocation = some r)
    (hnd : (store.map AccessGrant.id).Nodup)
    (hg : g ∈ store) (hgrev : g.revocation = some r2)
    (hres : revoke_grant { ac := acName, base := b, gr := none, cond := cond }
        now store = Except.ok (s2, rev2)) :
    revoke_grant { ac := acName, base := b, gr := some grId, cond := cond }
        now store = Except.error Error.AccessGrantRevoked ∧
    g ∈ s2 ∧
    (∀ x ∈ rev2, x.id ≠ g.id) ∧
    (∀ x ∈ s2, x.id = g.id → x = g) := by
  have hpick : revokePick cond g = false := by
    simp [revokePick, hgrev]
  have hloop : revokeLoop cond now store = (s2, rev2) := by
    simpa [revoke_grant] using hres
  have hs2 : s2 = store.map (fun gr =>
      if revokePick cond gr then { gr with revocation := some now }
      else gr) := by
    rw [← revokeLoop_fst cond now store, hloop]
  have hrev2 : rev2 = (store.filter (revokePick cond)).map
      (fun gr => ({ gr with revocation := some now } : AccessGrant).redacted) := by
    rw [← revokeLoop_snd cond now store, hloop]
  refine ⟨?_, ?_, ?_, ?_⟩
  · simp [revoke_grant, hfind, h0]
  · rw [hs2, List.mem_map]
    exact ⟨g, hg, by rw [hpick]; simp⟩
  · intro x hx
    rw [hrev2, List.mem_map] at hx
    obtain ⟨g2, hg2, hxeq⟩ := hx
    rw [List.mem_filter] at hg2
    obtain ⟨hg2mem, hg2pick⟩ := hg2
    intro hxid
    have hid2 : g2.id = g.id := by
      rw [← hxid, ← hxeq, redacted_id]
    have : g2 = g := List.inj_on_of_nodup_map hnd hg2mem hg hid2
    rw [this, hpick] at hg2pick
    exact Bool.false_ne_true hg2pick
  · intro x hx hxid
    rw [hs2, List.mem_map] at hx
    obtain ⟨g2, hg2mem, hxeq⟩ := hx
    have hid2 : g2.id = g.id := by
      rw [← hxid, ← hxeq, revokeUpdate_id]
    have hgg : g2 = g := List.inj_on_of_nodup_map hnd hg2mem hg hid2
    rw [hgg, hpick] at hxeq
    rw [← hxeq]
    simp

/-- Witness for C4 at a concrete input: a store holding one grant revoked at
time 500; revoking it by id fails, the bulk revoke keeps it untouched and
returns nothing. -/
theorem revoke_already_revoked_witness :
    (([grantRevokedW].find? (fun x => x.id = "b2") = some grantRevokedW) ∧
      grantRevokedW.revocation = some 500 ∧
      ([grantRevokedW].map AccessGrant.id).Nodup ∧
      grantRevokedW ∈ [grantRevokedW] ∧
      revoke_grant { ac := "api", base := none, gr := none, cond := none }
        900 [grantRevokedW] = Except.ok ([grantRevokedW], [])) ∧
    (revoke_grant { ac := "api", base := none, gr := some "b2", cond := none }
        900 [grantRevokedW] = Except.error Error.AccessGrantRevoked ∧
      grantRevokedW ∈ [grantRevokedW] ∧
      (∀ x ∈ ([] : List AccessGrant), x.id ≠ grantRevokedW.id) ∧
      (∀ x ∈ [grantRevokedW], x.id = grantRevokedW.id → x = grantRevokedW)) :=
  ⟨⟨by decide, by decide, by decide, by decide, rfl⟩,
   revoke_already_revoked "api" none none 900 [grantRevokedW] "b2"
     grantRevokedW grantRevokedW 500 500 [grantRevokedW] []
     (by decide) (by decide) (by decide) (by decide) (by decide) rfl⟩

/-! ## C7 — bulk filters are evaluated on redacted grants -/

/-- C7: in the bulk Show and Revoke paths with a filter, a grant is shown
(respectively revoked) exactly when the predicate is truthy on its redacted
form — the outcome is a function of the predicate's values on redacted
grants only — and every redacted form carries no raw key material: its
transient token is cleared and its bearer key, when present, is the fixed
redaction marker. -/
theorem bulk_filter_on_redacted (c : AccessGrant → Bool) (acName : String)
    (b : Option Base) (now : Int) (store : List AccessGrant) :
    (compute_show { ac := acName, base := b, gr := none, cond := some c }
        store =
      Except.ok ((store.filter (fun g => c g.redacted)).map
        AccessGrant.redacted)) ∧
    (revoke_grant { ac := acName, base := b, gr := none, cond := some c }
        now store =
      Except.ok
        (store.map (fun g =>
          if !g.revocation.isSome && c g.redacted then
            { g with revocation := some now }
          else g),
         (store.filter (fun g => !g.revocation.isSome && c g.redacted)).map
          (fun g => ({ g with revocation := some now } : AccessGrant).redacted))) ∧
    (∀ g : AccessGrant, tokenOf g.redacted = none) ∧
    (∀ g : AccessGrant,
      bearerKeyOf g.redacted = (bearerKeyOf g).map (fun _ => "[REDACTED]")) := by
  have hpick : ∀ g : AccessGrant,
      revokePick (some c) g = (!g.revocation.isSome && c g.redacted) := by
    intro g
    rw [revokePick_eq]
    rfl
  refine ⟨?_, ?_, ?_, ?_⟩
  · simp [compute_show, showLoop_eq]
  · have h1 := revokeLoop_fst (some c) now store
    have h2 := revokeLoop_snd (some c) now store
    have e : revokeLoop (some c) now store =
        (store.map (fun g =>
          if !g.revocation.isSome && c g.redacted then
            { g with revocation := some now }
          else g),
         (store.filter (fun g => !g.revocation.isSome && c g.redacted)).map
          (fun g => ({ g with revocation := some now } : AccessGrant).redacted)) := by
      refine Prod.ext_iff.mpr ⟨?_, ?_⟩
      · rw [h1]
        exact List.map_congr_left (fun g _ => by rw [hpick])
      · rw [h2, List.filter_congr (fun g _ => hpick g)]
    show Except.ok (revokeLoop (some c) now store) = _
    rw [e]
  · intro g
    cases hg : g.grant <;> simp [tokenOf, AccessGrant.redacted, hg]
  · intro g
    cases hg : g.grant <;> simp [bearerKeyOf, AccessGrant.redacted, hg]

/-! ## Length of the hex digest -/

/-- The compression function always yields an eight-word state. -/
theorem compress_length (hs w : List Nat) : (compress hs w).length = 8 := by
  unfold compress
  split
  rfl

/-- Folding the compression function preserves the eight-word state
length. -/
theorem foldl_compress_length (g : Nat → List Nat) (l : List Nat)
    (init : List Nat) (h : init.length = 8) :
    (l.foldl (fun st i => compress st (g i)) init).length = 8 := by
  induction l generalizing init with
  | nil => exact h
  | cons a t ih => exact ih _ (compress_length _ _)

/-- The SHA-256 digest is eight 32-bit words. -/
theorem sha256words_length (msg : List Nat) : (sha256words msg).length = 8 := by
  unfold sha256words
  exact foldl_compress_length _ _ _ rfl

/-- Each word contributes four digest bytes. -/
theorem flatMap_wordBytes_length (ws : List Nat) :
    (ws.flatMap wordBytes).length = 4 * ws.length := by
  induction ws with
  | nil => rfl
  | cons a t ih => simp [List.flatMap_cons, wordBytes, ih]; omega

/-- Each byte contributes two hex characters. -/
theorem flatMap_byteToHex_length (bs : List Nat) :
    (bs.flatMap byteToHex).length = 2 * bs.length := by
  induction bs with
  | nil => rfl
  | cons a t ih => simp [List.flatMap_cons, byteToHex, ih]; omega

/-- The hex-encoded SHA-256 digest of any string has 64 characters. -/
theorem sha256hex_length (s : String) : (sha256hex s).length = 64 := by
  unfold sha256hex
  show (((sha256words (strBytes s)).flatMap wordBytes).flatMap byteToHex).length = 64
  rw [flatMap_byteToHex_length, flatMap_wordBytes_length, sha256words_length]

/-- A string that is not itself 64 characters long differs from its
hex-encoded digest. -/
theorem sha256hex_ne_of_length (s : String) (h : s.length ≠ 64) :
    sha256hex s ≠ s :=
  fun he => h (by rw [← he, sha256hex_length])

/-- The embedded digest matches the FIPS 180-4 test vector for `abc`,
pinning the implementation to real SHA-256. -/
theorem sha256hex_test_vector :
    sha256hex "abc" =
      "ba7816bf8f01cfea414140de5dae2223b00361a396177a9cb410ff61f20015ad" := by
  decide

/-! ## Shape of a successful Create -/

/-- Any successful `create_grant` returns the grant built around a fresh
bearer key for some token head, and appends exactly its hashed copy to the
store. -/
theorem create_grant_ok_shape (stmt : AccessStatementGrant)
    (ac : DefineAccess) (env : CreateEnv) (store : List AccessGrant)
    (g : AccessGrant) (store2 : List AccessGrant)
    (h : create_grant stmt ac env store = Except.ok (g, store2)) :
    ∃ pre2 : String,
      g = builtGrant ac stmt.subject env
        (GrantBearer.new pre2 env.d1 env.dId env.dKey) ∧
      store2 = store ++
        [{ g with grant :=
            Grant.Bearer (GrantBearer.new pre2 env.d1 env.dId env.dKey).hashed }] := by
  have putResult : ∀ (grStore gr : AccessGrant),
      (put store grStore).map (fun s => (gr, s)) = Except.ok (g, store2) →
      g = gr ∧ store2 = store ++ [grStore] := by
    intro grStore gr hput
    unfold put at hput
    by_cases hc : store.any (fun g0 => g0.id = grStore.id)
    · rw [if_pos hc] at hput
      exact absurd hput (by simp [Except.map])
    · rw [if_neg hc] at hput
      simp only [Except.map, Except.ok.injEq, Prod.mk.injEq] at hput
      exact ⟨hput.1.symm, hput.2.symm⟩
  unfold create_grant at h
  cases hk : ac.kind with
  | Jwt =>
    rw [hk] at h
    exact absurd h (by simp)
  | Record ob =>
    rw [hk] at h
    dsimp only at h
    cases hs2 : stmt.subject with
    | User u =>
      rw [hs2] at h
      exact absurd h (by simp)
    | Record rid =>
      rw [hs2] at h
      dsimp only at h
      by_cases hb : stmt.base.getD env.selected_base = Base.Db
      · rw [if_pos hb] at h
        cases ob with
        | none => exact absurd h (by simp)
        | some atb =>
          rw [hb] at h
          dsimp only at h
          obtain ⟨hg, hstore⟩ := putResult _ _ h
          exact ⟨atb.pre, hg, by rw [hstore, hg]⟩
      · rw [if_neg hb] at h
        exact absurd h (by simp)
  | Bearer atk =>
    rw [hk] at h
    dsimp only at h
    cases hs2 : stmt.subject with
    | User u =>
      rw [hs2] at h
      dsimp only at h
      by_cases ha : atk.subject = BearerAccessSubject.User
      · rw [if_pos ha] at h
        by_cases hu : env.userExists (stmt.base.getD env.selected_base) u
        · rw [if_pos hu] at h
          simp only [Except.bind] at h
          obtain ⟨hg, hstore⟩ := putResult _ _ h
          exact ⟨atk.pre, hg, by rw [hstore, hg]⟩
        · rw [if_neg hu] at h
          exact absurd h (by simp [Except.bind])
      · rw [if_neg ha] at h
        exact absurd h (by simp [Except.bind])
    | Record rid =>
      rw [hs2] at h
      dsimp only at h
      by_cases hb : stmt.base.getD env.selected_base = Base.Db
      · rw [if_pos hb] at h
        by_cases ha : atk.subject = BearerAccessSubject.Record
        · rw [if_pos ha] at h
          simp only [Except.bind] at h
          obtain ⟨hg, hstore⟩ := putResult _ _ h
          exact ⟨atk.pre, hg, by rw [hstore, hg]⟩
        · rw [if_neg ha] at h
          exact absurd h (by simp [Except.bind])
      · rw [if_neg hb] at h
        exact absurd h (by simp [Except.bind])

/-! ## C1 — Create persists only the hashed key and returns the plaintext -/

/-- C1: every successful Create writes exactly one value to the store — a
copy of the returned grant whose bearer key field is the SHA-256 digest of
the full plaintext key string (token head, key id and secret included),
encoded as lowercase hex — while the value returned to the caller keeps the
plaintext key; the 64-character digest differs from every plaintext whose
length is not 64, so the plaintext itself is not what is stored. -/
theorem create_stores_hashed_key (stmt : AccessStatementGrant)
    (ac : DefineAccess) (env : CreateEnv) (store : List AccessGrant)
    (g : AccessGrant) (store2 : List AccessGrant)
    (h : create_grant stmt ac env store = Except.ok (g, store2)) :
    ∃ b : GrantBearer,
      g.grant = Grant.Bearer b ∧
      store2 = store ++ [{ g with grant := Grant.Bearer b.hashed }] ∧
      b.hashed.id = b.id ∧
      b.hashed.key = sha256hex b.key ∧
      (∃ pre2 secret, b.key = pre2 ++ "-" ++ b.id ++ "-" ++ secret) ∧
      (sha256hex b.key).length = 64 ∧
      (b.key.length ≠ 64 → b.hashed.key ≠ b.key) := by
  obtain ⟨pre2, hg, hstore⟩ := create_grant_ok_shape stmt ac env store g store2 h
  refine ⟨GrantBearer.new pre2 env.d1 env.dId env.dKey, ?_, hstore, rfl, rfl,
    ?_, sha256hex_length _, ?_⟩
  · rw [hg]; rfl
  · exact ⟨pre2, random_string GRANT_BEARER_CHARACTER_POOL env.dKey, rfl⟩
  · intro hlen heq
    exact sha256hex_ne_of_length _ hlen heq

/-- Witness for C1 at a concrete input: creating a record-bearer grant at
database level with zero random draws succeeds, and the stored copy carries
the hex digest while the returned grant keeps the plaintext. -/
theorem create_stores_hashed_key_witness :
    ∃ g store2,
      create_grant grantStmtW acRecordW envW [] = Except.ok (g, store2) ∧
      ∃ b : GrantBearer,
        g.grant = Grant.Bearer b ∧
        store2 = [] ++ [{ g with grant := Grant.Bearer b.hashed }] ∧
        b.hashed.id = b.id ∧
        b.hashed.key = sha256hex b.key ∧
        (∃ pre2 secret, b.key = pre2 ++ "-" ++ b.id ++ "-" ++ secret) ∧
        (sha256hex b.key).length = 64 ∧
        (b.key.length ≠ 64 → b.hashed.key ≠ b.key) :=
  ⟨_, _, rfl, create_stores_hashed_key grantStmtW acRecordW envW [] _ _ rfl⟩

/-! ## C6 — the fields of a created grant -/

/-- C6: every successful Create returns a grant whose creation time is now,
whose expiration is the creation time plus the access method's grant
duration when one is configured and absent otherwise, whose revocation time
is absent, whose subject is the statement's, and whose payload is the bearer
grant, with the grant id equal to the bearer key id. -/
theorem create_grant_fields (stmt : AccessStatementGrant)
    (ac : DefineAccess) (env : CreateEnv) (store : List AccessGrant)
    (g : AccessGrant) (store2 : List AccessGrant)
    (h : create_grant stmt ac env store = Except.ok (g, store2)) :
    g.creation = env.now ∧
    g.expiration = ac.duration.grant.map (fun d => g.creation + (d : Int)) ∧
    g.revocation = none ∧
    g.subject = stmt.subject ∧
    ∃ b : GrantBearer, g.grant = Grant.Bearer b ∧ g.id = b.id := by
  obtain ⟨pre2, hg, hstore⟩ := create_grant_ok_shape stmt ac env store g store2 h
  subst hg
  refine ⟨rfl, ?_, rfl, rfl,
    ⟨GrantBearer.new pre2 env.d1 env.dId env.dKey, rfl, rfl⟩⟩
  cases hd : ac.duration.grant <;> simp [builtGrant, hd, Int.add_comm]

/-- Witness for C6 at a concrete input: the grant created at time 1000 under
a 600-second grant duration carries creation 1000, expiration 1600, no
revocation, the record subject of the statement, and its bearer key id. -/
theorem create_grant_fields_witness :
    ∃ g store2,
      create_grant grantStmtW acRecordW envW [] = Except.ok (g, store2) ∧
      (g.creation = envW.now ∧
       g.expiration =
         acRecordW.duration.grant.map (fun d => g.creation + (d : Int)) ∧
       g.revocation = none ∧
       g.subject = grantStmtW.subject ∧
       ∃ b : GrantBearer, g.grant = Grant.Bearer b ∧ g.id = b.id) :=
  ⟨_, _, rfl, create_grant_fields grantStmtW acRecordW envW [] _ _ rfl⟩

/-! ## C5 — Create validation for record-bearer access methods -/

/-- C5: against a record-bearer access method, Create rejects a user subject
with the invalid-subject error, rejects a record subject at any level other
than database with the database-required error, and rejects a method
lacking its nested bearer configuration (once subject and level pass) with
the method-mismatch error; each rejection is an error result, so no grant
is written. -/
theorem record_bearer_create_rejections (stmt : AccessStatementGrant)
    (ac : DefineAccess) (env : CreateEnv) (store : List AccessGrant)
    (ob : Option BearerAccess) (hk : ac.kind = AccessType.Record ob) :
    (∀ u, stmt.subject = Subject.User u →
      create_grant stmt ac env store =
        Except.error Error.AccessGrantInvalidSubject) ∧
    (∀ r, stmt.subject = Subject.Record r →
      stmt.base.getD env.selected_base ≠ Base.Db →
      create_grant stmt ac env store = Except.error Error.DbEmpty) ∧
    (∀ r, stmt.subject = Subject.Record r →
      stmt.base.getD env.selected_base = Base.Db → ob = none →
      create_grant stmt ac env store =
        Except.error Error.AccessMethodMismatch) := by
  refine ⟨?_, ?_, ?_⟩
  · intro u hu
    unfold create_grant
    rw [hk, hu]
  · intro r hrx hb
    unfold create_grant
    rw [hk, hrx]
    dsimp only
    rw [if_neg hb]
  · intro r hrx hb hob
    unfold create_grant
    rw [hk, hrx, hob]
    dsimp only
    rw [if_pos hb]

/-- Witness for C5 at a concrete input: a record-bearer access method
without its nested bearer configuration. -/
theorem record_bearer_create_rejections_witness :
    acRecordNoBearerW.kind = AccessType.Record none ∧
    ((∀ u, grantStmtW.subject = Subject.User u →
      create_grant grantStmtW acRecordNoBearerW envW [] =
        Except.error Error.AccessGrantInvalidSubject) ∧
    (∀ r, grantStmtW.subject = Subject.Record r →
      grantStmtW.base.getD envW.selected_base ≠ Base.Db →
      create_grant grantStmtW acRecordNoBearerW envW [] =
        Except.error Error.DbEmpty) ∧
    (∀ r, grantStmtW.subject = Subject.Record r →
      grantStmtW.base.getD envW.selected_base = Base.Db →
      (none : Option BearerAccess) = none →
      create_grant grantStmtW acRecordNoBearerW envW [] =
        Except.error Error.AccessMethodMismatch)) :=
  ⟨rfl, record_bearer_create_rejections grantStmtW acRecordNoBearerW envW []
    none rfl⟩

end SurrealAccess
